import Mathlib

/-!
Verification of the loopia-ddns reconciliation daemon (src/loopia_ddns.py).

The Python program keeps two in-memory dictionaries, `current_ips` (the
Applied-IP State) and `zone_record_ids` (the Record-Identity State), and in an
endless loop resolves the public IP and reconciles every configured subdomain
against it via the Loopia XML-RPC API.

Shallow embedding choices:
* The two dictionaries become functions `String → Option _`; a Python value of
  `None` is `none`.
* The network is an oracle: a `Provider` structure gives, for each RPC the
  program can issue, either an answer (`Except.ok`) or a raised exception
  (`Except.error ()`).  The IP-echo services are a list of `ServiceResult`s.
* Every externally visible call is recorded in an event trace so that claims
  about "how many lookups / write attempts happen" are statements about the
  trace.
* `record_id` values are natural numbers, as delivered by the XML-RPC layer;
  `0` plays the role Python gives it (`x or 0`, `record_id == 0`).
-/

/-- One zone record as returned by `client.getZoneRecords`; only the
`record_id` field is ever consumed by the program (`response[0].get('record_id')`). -/
structure ZoneRecord where
  record_id : Nat
  deriving DecidableEq, Repr

/-- The record descriptor built at lines 92–99 of the source
(`record_obj = \x7b'type': 'A', 'ttl': 600, 'priority': 0, 'rdata': new_ip,
'record_id': record_id\x7d`). -/
structure RecordObj where
  type : String
  ttl : Nat
  priority : Nat
  rdata : String
  record_id : Nat
  deriving DecidableEq, Repr

/-- Oracle for the Loopia XML-RPC endpoint: each operation either returns a
value (`Except.ok`) or raises (`Except.error ()`).  The username, password and
domain arguments are fixed for the process lifetime and therefore omitted;
each call is keyed by the subdomain (and the record descriptor for writes).
`addZoneRecord` and `updateZoneRecord` return the provider status value that
the program compares against the literal string "OK". -/
structure Provider where
  getZoneRecords : String → Except Unit (List ZoneRecord)
  addZoneRecord : String → RecordObj → Except Unit String
  updateZoneRecord : String → RecordObj → Except Unit String

/-- The in-memory state of a `LoopiaUpdater`: `current_ips` maps a subdomain to
the last IP successfully written for it (Python `None` = `none`), and
`zone_record_ids` maps a subdomain to the cached provider record identifier. -/
structure UpdaterState where
  current_ips : String → Option String
  zone_record_ids : String → Option Nat

/-- The state right after `__init__`: every subdomain maps to `None` in both
dictionaries. -/
def initState : UpdaterState :=
  { current_ips := fun _ => none, zone_record_ids := fun _ => none }

/-- Point update of `current_ips` (the assignment
`self.current_ips[subdomain] = new_ip`). -/
def UpdaterState.setIp (st : UpdaterState) (subdomain ip : String) : UpdaterState :=
  { st with current_ips := fun s => if s = subdomain then some ip else st.current_ips s }

/-- Point update of `zone_record_ids` (the assignment
`self.zone_record_ids[subdomain] = response[0].get('record_id')`). -/
def UpdaterState.setZoneId (st : UpdaterState) (subdomain : String) (id : Nat) : UpdaterState :=
  { st with zone_record_ids := fun s => if s = subdomain then some id else st.zone_record_ids s }

/-- Trace events: one entry per invocation of the Writer
(`update_dns_record`), and one per provider RPC actually issued. -/
inductive Event where
  | writeAttempt (subdomain ip : String)
  | getZoneRecords (subdomain : String)
  | addZoneRecord (subdomain : String) (record : RecordObj)
  | updateZoneRecord (subdomain : String) (record : RecordObj)
  deriving DecidableEq, Repr

/-- The subdomain an event concerns. -/
def Event.subdomain : Event → String
  | .writeAttempt s _ => s
  | .getZoneRecords s => s
  | .addZoneRecord s _ => s
  | .updateZoneRecord s _ => s

/-- Whether an event is a Writer invocation for subdomain `s`. -/
def Event.isWriteAttemptFor (e : Event) (s : String) : Bool :=
  match e with
  | .writeAttempt s' _ => s' = s
  | _ => false

/-- Whether an event is a `getZoneRecords` lookup for subdomain `s`. -/
def Event.isLookupFor (e : Event) (s : String) : Bool :=
  match e with
  | .getZoneRecords s' => s' = s
  | _ => false

/-- The record descriptor the program builds for a write (source lines 92–99):
type "A", ttl 600, priority 0, rdata the new IP, and the resolved record id. -/
def mkRecordObj (new_ip : String) (record_id : Nat) : RecordObj :=
  { type := "A", ttl := 600, priority := 0, rdata := new_ip, record_id := record_id }

/-- Second half of `update_dns_record` (source lines 92–117): build the record
object, issue `addZoneRecord` when `record_id == 0` and `updateZoneRecord`
otherwise, and interpret the status: `'OK'` confirms the write (and only then
is `current_ips[subdomain]` set); any other status, or a raised exception,
yields `False` with `current_ips` untouched.  `pre` is the trace accumulated
so far in this Writer invocation. -/
def issueZoneWrite (p : Provider) (st : UpdaterState) (subdomain new_ip : String)
    (record_id : Nat) (pre : List Event) : Bool × UpdaterState × List Event :=
  let record_obj := mkRecordObj new_ip record_id
  let callResult :=
    if record_id = 0 then p.addZoneRecord subdomain record_obj
    else p.updateZoneRecord subdomain record_obj
  let ev :=
    if record_id = 0 then Event.addZoneRecord subdomain record_obj
    else Event.updateZoneRecord subdomain record_obj
  match callResult with
  | .error _ => (false, st, pre ++ [ev])
  | .ok status =>
    if status = "OK" then (true, st.setIp subdomain new_ip, pre ++ [ev])
    else (false, st, pre ++ [ev])

/-- `LoopiaUpdater.update_dns_record` (source lines 61–117).  The whole body is
inside `try/except`; a raised exception from any provider call makes the
function return `False`, keeping whatever state mutations already happened.
`cached_zone_record_id = self.zone_record_ids[subdomain] or 0`; when it is `0`
the program calls `getZoneRecords`, and if the response is non-empty it caches
and uses `response[0]`'s record id (this caching happens before the
create/update call).  Returns (result, new state, trace of this invocation). -/
def update_dns_record (p : Provider) (st : UpdaterState) (subdomain new_ip : String) :
    Bool × UpdaterState × List Event :=
  let pre := [Event.writeAttempt subdomain new_ip]
  let cached := (st.zone_record_ids subdomain).getD 0
  if cached = 0 then
    match p.getZoneRecords subdomain with
    | .error _ => (false, st, pre ++ [Event.getZoneRecords subdomain])
    | .ok [] =>
      issueZoneWrite p st subdomain new_ip 0 (pre ++ [Event.getZoneRecords subdomain])
    | .ok (r :: _) =>
      issueZoneWrite p (st.setZoneId subdomain r.record_id) subdomain new_ip r.record_id
        (pre ++ [Event.getZoneRecords subdomain])
  else
    issueZoneWrite p st subdomain new_ip cached pre

/-- Outcome of querying one IP-echo service, as the program distinguishes
them: `success ip` is an HTTP 200 response whose JSON body yields `ip`
(`response.json()['ip']` succeeds); `malformed` is an HTTP 200 response whose
body cannot be parsed or lacks the field (the raised exception is caught);
`failure` is a transport error / timeout (exception, caught) or a non-200
status code. -/
inductive ServiceResult where
  | success (ip : String)
  | malformed
  | failure
  deriving DecidableEq, Repr

/-- `LoopiaUpdater.get_public_ip` (source lines 42–59): walk the service list
in order, return the IP of the first service answering 200 with a parseable
body; raise (`Except.error ()`) when every service has failed. -/
def get_public_ip : List ServiceResult → Except Unit String
  | [] => .error ()
  | .success ip :: _ => .ok ip
  | .malformed :: rest => get_public_ip rest
  | .failure :: rest => get_public_ip rest

/-- Spec-side description of the resolver ("returns the IP from the first
service that responds successfully"): the first `success` entry, if any. -/
def firstSuccessIp : List ServiceResult → Option String
  | [] => none
  | .success ip :: _ => some ip
  | .malformed :: rest => firstSuccessIp rest
  | .failure :: rest => firstSuccessIp rest

/-- The per-subdomain loop of `update_all_records` (source lines 130–137):
for each subdomain in order, skip (recording `True`) when
`new_ip == self.current_ips[subdomain]`, otherwise call the Writer and record
its result.  `results` is the dictionary being built. -/
def update_loop (p : Provider) (new_ip : String) :
    List String → UpdaterState → (String → Option Bool) →
    (String → Option Bool) × UpdaterState × List Event
  | [], st, results => (results, st, [])
  | subdomain :: rest, st, results =>
    if st.current_ips subdomain ≠ some new_ip then
      let w := update_dns_record p st subdomain new_ip
      let out := update_loop p new_ip rest w.2.1
        (fun s => if s = subdomain then some w.1 else results s)
      (out.1, out.2.1, w.2.2 ++ out.2.2)
    else
      update_loop p new_ip rest st (fun s => if s = subdomain then some true else results s)

/-- `LoopiaUpdater.update_all_records` (source lines 119–143).  `ipResult` is
the outcome of `self.get_public_ip()`; when it raises, the `except` branch
returns `\x7bsubdomain: False for subdomain in self.subdomains\x7d` and nothing
else happens.  Otherwise the per-subdomain loop runs.  Returns the results
dictionary, the new state, and the cycle's trace. -/
def update_all_records (ipResult : Except Unit String) (p : Provider)
    (st : UpdaterState) (subdomains : List String) :
    (String → Option Bool) × UpdaterState × List Event :=
  match ipResult with
  | .error _ => (fun s => if subdomains.contains s then some false else none, st, [])
  | .ok new_ip => update_loop p new_ip subdomains st (fun _ => none)

/-- The `while True` loop of `main` (source lines 173–182), for a finite list
of cycles: each cycle supplies that cycle's IP-resolution outcome and provider
behaviour; `update_all_records` is run, its state threaded on, its trace
appended.  (`time.sleep` and logging have no effect on the model.) -/
def run_cycles (subdomains : List String) :
    List (Except Unit String × Provider) → UpdaterState → UpdaterState × List Event
  | [], st => (st, [])
  | (ipResult, p) :: rest, st =>
    let cycle := update_all_records ipResult p st subdomains
    let remaining := run_cycles subdomains rest cycle.2.1
    (remaining.1, cycle.2.2 ++ remaining.2)

/-- One element of the configuration list fetched in `main`; `get_value_by_key`
reads the `key` and `value` fields. -/
structure KV (α : Type) where
  key : String
  value : α

/-- `get_value_by_key` (source lines 145–149): first `value` whose `key`
matches, else `None`. -/
def get_value_by_key {α : Type} : List (KV α) → String → Option α
  | [], _ => none
  | item :: rest, target_key =>
    if item.key = target_key then some item.value else get_value_by_key rest target_key

/-! ### Concrete environments used for witnesses and counterexamples -/

/-- A provider whose zone is empty and whose writes succeed: every lookup
returns no records, every create/update returns "OK". -/
def pOkEmpty : Provider :=
  { getZoneRecords := fun _ => .ok []
    addZoneRecord := fun _ _ => .ok "OK"
    updateZoneRecord := fun _ _ => .ok "OK" }

/-- Provider for the spec's two-subdomain scenario: an existing record with
identity 7 for every subdomain; updates succeed for "www" and are rejected
for everything else. -/
def pScenario : Provider :=
  { getZoneRecords := fun _ => .ok [{ record_id := 7 }]
    addZoneRecord := fun _ _ => .ok "OK"
    updateZoneRecord := fun s _ => if s = "www" then .ok "OK" else .ok "AUTH_ERROR" }

/-- State with "www" and "@" both applied at 1.1.1.1 and no cached identity. -/
def st11 : UpdaterState :=
  { current_ips := fun s => if s = "www" ∨ s = "@" then some "1.1.1.1" else none
    zone_record_ids := fun _ => none }

/-- Provider whose lookup raises for "@" and succeeds elsewhere. -/
def pRaiseAt : Provider :=
  { getZoneRecords := fun s => if s = "@" then .error () else .ok [{ record_id := 7 }]
    addZoneRecord := fun _ _ => .ok "OK"
    updateZoneRecord := fun _ _ => .ok "OK" }

/-- Provider with an existing record of identity 42 and succeeding writes. -/
def p42 : Provider :=
  { getZoneRecords := fun _ => .ok [{ record_id := 42 }]
    addZoneRecord := fun _ _ => .ok "OK"
    updateZoneRecord := fun _ _ => .ok "OK" }

/-- Provider with an existing record of identity 42 whose updates are
rejected with a non-sentinel status. -/
def p42fail : Provider :=
  { getZoneRecords := fun _ => .ok [{ record_id := 42 }]
    addZoneRecord := fun _ _ => .ok "OK"
    updateZoneRecord := fun _ _ => .ok "ERROR" }

/-- State with every subdomain applied at 1.1.1.1 and the identity for "www"
already cached as 42. -/
def stCached : UpdaterState :=
  { current_ips := fun _ => some "1.1.1.1"
    zone_record_ids := fun s => if s = "www" then some 42 else none }

/-- A sample configuration list as fetched in `main`. -/
def kvExample : List (KV String) :=
  [{ key := "LOOPIA_PASSWORD", value := "pw" }, { key := "LOOPIA_USERNAME", value := "user" }]

/-! ### Basic lemmas about the Writer -/

theorem UpdaterState.setIp_current_ips (st : UpdaterState) (sub ip s : String) :
    (st.setIp sub ip).current_ips s = if s = sub then some ip else st.current_ips s := rfl

theorem UpdaterState.setIp_zone_record_ids (st : UpdaterState) (sub ip : String) :
    (st.setIp sub ip).zone_record_ids = st.zone_record_ids := rfl

theorem UpdaterState.setZoneId_current_ips (st : UpdaterState) (sub : String) (id : Nat) :
    (st.setZoneId sub id).current_ips = st.current_ips := rfl

theorem UpdaterState.setZoneId_zone_record_ids (st : UpdaterState) (sub : String) (id : Nat)
    (s : String) :
    (st.setZoneId sub id).zone_record_ids s = if s = sub then some id else st.zone_record_ids s := rfl

theorem issueZoneWrite_state (p : Provider) (st : UpdaterState) (sub ip : String) (rid : Nat)
    (pre : List Event) :
    (issueZoneWrite p st sub ip rid pre).2.1 =
      if (issueZoneWrite p st sub ip rid pre).1 = true then st.setIp sub ip else st := by
  rcases hc : (if rid = 0 then p.addZoneRecord sub (mkRecordObj ip rid)
      else p.updateZoneRecord sub (mkRecordObj ip rid)) with e | status
  · simp [issueZoneWrite, hc]
  · by_cases hs : status = "OK" <;> simp [issueZoneWrite, hc, hs]

theorem issueZoneWrite_trace (p : Provider) (st : UpdaterState) (sub ip : String) (rid : Nat)
    (pre : List Event) :
    (issueZoneWrite p st sub ip rid pre).2.2 =
      pre ++ [if rid = 0 then Event.addZoneRecord sub (mkRecordObj ip rid)
              else Event.updateZoneRecord sub (mkRecordObj ip rid)] := by
  rcases hc : (if rid = 0 then p.addZoneRecord sub (mkRecordObj ip rid)
      else p.updateZoneRecord sub (mkRecordObj ip rid)) with e | status
  · simp [issueZoneWrite, hc]
  · by_cases hs : status = "OK" <;> simp [issueZoneWrite, hc, hs]

theorem issueZoneWrite_result (p : Provider) (st : UpdaterState) (sub ip : String) (rid : Nat)
    (pre : List Event) :
    (issueZoneWrite p st sub ip rid pre).1 = true ↔
      (if rid = 0 then p.addZoneRecord sub (mkRecordObj ip rid)
       else p.updateZoneRecord sub (mkRecordObj ip rid)) = Except.ok "OK" := by
  rcases hc : (if rid = 0 then p.addZoneRecord sub (mkRecordObj ip rid)
      else p.updateZoneRecord sub (mkRecordObj ip rid)) with e | status
  · simp [issueZoneWrite, hc]
  · by_cases hs : status = "OK" <;> simp [issueZoneWrite, hc, hs]

theorem issueZoneWrite_current_ips (p : Provider) (st : UpdaterState) (sub ip : String)
    (rid : Nat) (pre : List Event) (s : String) :
    (issueZoneWrite p st sub ip rid pre).2.1.current_ips s =
      if s = sub ∧ (issueZoneWrite p st sub ip rid pre).1 = true then some ip
      else st.current_ips s := by
  rw [issueZoneWrite_state]
  cases hb : (issueZoneWrite p st sub ip rid pre).1 <;>
    simp [hb, UpdaterState.setIp]

theorem issueZoneWrite_zone_record_ids (p : Provider) (st : UpdaterState) (sub ip : String)
    (rid : Nat) (pre : List Event) :
    (issueZoneWrite p st sub ip rid pre).2.1.zone_record_ids = st.zone_record_ids := by
  rw [issueZoneWrite_state]
  split <;> rfl

/-! ### Case equations for `update_dns_record` -/

theorem update_dns_record_cached (p : Provider) (st : UpdaterState) (sub ip : String) (id : Nat)
    (h : st.zone_record_ids sub = some id) (h0 : id ≠ 0) :
    update_dns_record p st sub ip =
      issueZoneWrite p st sub ip id [Event.writeAttempt sub ip] := by
  simp [update_dns_record, h, h0]

theorem update_dns_record_lookup_err (p : Provider) (st : UpdaterState) (sub ip : String)
    (h : (st.zone_record_ids sub).getD 0 = 0) (hg : p.getZoneRecords sub = Except.error ()) :
    update_dns_record p st sub ip =
      (false, st, [Event.writeAttempt sub ip, Event.getZoneRecords sub]) := by
  simp [update_dns_record, h, hg]

theorem update_dns_record_lookup_nil (p : Provider) (st : UpdaterState) (sub ip : String)
    (h : (st.zone_record_ids sub).getD 0 = 0) (hg : p.getZoneRecords sub = Except.ok []) :
    update_dns_record p st sub ip =
      issueZoneWrite p st sub ip 0 [Event.writeAttempt sub ip, Event.getZoneRecords sub] := by
  simp [update_dns_record, h, hg]

theorem update_dns_record_lookup_cons (p : Provider) (st : UpdaterState) (sub ip : String)
    (r : ZoneRecord) (t : List ZoneRecord)
    (h : (st.zone_record_ids sub).getD 0 = 0) (hg : p.getZoneRecords sub = Except.ok (r :: t)) :
    update_dns_record p st sub ip =
      issueZoneWrite p (st.setZoneId sub r.record_id) sub ip r.record_id
        [Event.writeAttempt sub ip, Event.getZoneRecords sub] := by
  simp [update_dns_record, h, hg]

/-- When `zone_record_ids[subdomain] or 0` is nonzero, the cache holds a
nonzero identity. -/
theorem cached_nonzero (st : UpdaterState) (sub : String)
    (h : ¬ (st.zone_record_ids sub).getD 0 = 0) :
    ∃ id, st.zone_record_ids sub = some id ∧ id ≠ 0 := by
  rcases hz : st.zone_record_ids sub with _ | id
  · rw [hz] at h
    simp at h
  · exact ⟨id, rfl, by rw [hz] at h; simpa using h⟩

/-- The Writer mutates `current_ips` at its own subdomain exactly when it
returns `True`, and nowhere else. -/
theorem update_dns_record_current_ips (p : Provider) (st : UpdaterState) (sub ip : String)
    (s : String) :
    (update_dns_record p st sub ip).2.1.current_ips s =
      if s = sub ∧ (update_dns_record p st sub ip).1 = true then some ip
      else st.current_ips s := by
  by_cases h : (st.zone_record_ids sub).getD 0 = 0
  · rcases hg : p.getZoneRecords sub with e | l
    · rw [update_dns_record_lookup_err p st sub ip h hg]
      simp
    · rcases l with _ | ⟨r, t⟩
      · rw [update_dns_record_lookup_nil p st sub ip h hg]
        exact issueZoneWrite_current_ips ..
      · rw [update_dns_record_lookup_cons p st sub ip r t h hg]
        rw [issueZoneWrite_current_ips]
        rfl
  · obtain ⟨id, hz, h0⟩ := cached_nonzero st sub h
    rw [update_dns_record_cached p st sub ip id hz h0]
    exact issueZoneWrite_current_ips ..

/-- The Writer never touches `zone_record_ids` of another subdomain. -/
theorem update_dns_record_zone_frame (p : Provider) (st : UpdaterState) (sub ip : String)
    (s : String) (hs : s ≠ sub) :
    (update_dns_record p st sub ip).2.1.zone_record_ids s = st.zone_record_ids s := by
  by_cases h : (st.zone_record_ids sub).getD 0 = 0
  · rcases hg : p.getZoneRecords sub with e | l
    · rw [update_dns_record_lookup_err p st sub ip h hg]
    · rcases l with _ | ⟨r, t⟩
      · rw [update_dns_record_lookup_nil p st sub ip h hg, issueZoneWrite_zone_record_ids]
      · rw [update_dns_record_lookup_cons p st sub ip r t h hg, issueZoneWrite_zone_record_ids]
        rw [UpdaterState.setZoneId_zone_record_ids]
        simp [hs]
  · obtain ⟨id, hz, h0⟩ := cached_nonzero st sub h
    rw [update_dns_record_cached p st sub ip id hz h0, issueZoneWrite_zone_record_ids]

/-- Every event a Writer invocation emits concerns the Writer's subdomain. -/
theorem update_dns_record_events_sub (p : Provider) (st : UpdaterState) (sub ip : String) :
    ∀ e ∈ (update_dns_record p st sub ip).2.2, e.subdomain = sub := by
  by_cases h : (st.zone_record_ids sub).getD 0 = 0
  · rcases hg : p.getZoneRecords sub with e | l
    · rw [update_dns_record_lookup_err p st sub ip h hg]
      intro e he
      simp only [List.mem_cons, List.not_mem_nil, or_false] at he
      rcases he with rfl | rfl <;> rfl
    · rcases l with _ | ⟨r, t⟩
      · rw [update_dns_record_lookup_nil p st sub ip h hg, issueZoneWrite_trace]
        intro e he
        simp only [List.mem_append, List.mem_cons, List.not_mem_nil, or_false] at he
        rcases he with (rfl | rfl) | rfl
        · rfl
        · rfl
        · split <;> rfl
      · rw [update_dns_record_lookup_cons p st sub ip r t h hg, issueZoneWrite_trace]
        intro e he
        simp only [List.mem_append, List.mem_cons, List.not_mem_nil, or_false] at he
        rcases he with (rfl | rfl) | rfl
        · rfl
        · rfl
        · split <;> rfl
  · obtain ⟨id, hz, h0⟩ := cached_nonzero st sub h
    rw [update_dns_record_cached p st sub ip id hz h0, issueZoneWrite_trace]
    intro e he
    simp only [List.mem_append, List.mem_cons, List.not_mem_nil, or_false] at he
    rcases he with rfl | rfl
    · rfl
    · split <;> rfl

theorem isWriteAttemptFor_writeAttempt (s' ip s : String) :
    (Event.writeAttempt s' ip).isWriteAttemptFor s = decide (s' = s) := rfl

theorem isWriteAttemptFor_getZoneRecords (s' s : String) :
    (Event.getZoneRecords s').isWriteAttemptFor s = false := rfl

theorem isWriteAttemptFor_addZoneRecord (s' : String) (r : RecordObj) (s : String) :
    (Event.addZoneRecord s' r).isWriteAttemptFor s = false := rfl

theorem isWriteAttemptFor_updateZoneRecord (s' : String) (r : RecordObj) (s : String) :
    (Event.updateZoneRecord s' r).isWriteAttemptFor s = false := rfl

theorem isLookupFor_writeAttempt (s' ip s : String) :
    (Event.writeAttempt s' ip).isLookupFor s = false := rfl

theorem isLookupFor_getZoneRecords (s' s : String) :
    (Event.getZoneRecords s').isLookupFor s = decide (s' = s) := rfl

theorem isLookupFor_addZoneRecord (s' : String) (r : RecordObj) (s : String) :
    (Event.addZoneRecord s' r).isLookupFor s = false := rfl

theorem isLookupFor_updateZoneRecord (s' : String) (r : RecordObj) (s : String) :
    (Event.updateZoneRecord s' r).isLookupFor s = false := rfl

/-- Exactly the Writer's own `writeAttempt` event survives filtering its trace
for write attempts: one attempt, carrying the target IP. -/
theorem update_dns_record_filterWA (p : Provider) (st : UpdaterState) (sub ip : String)
    (s : String) :
    ((update_dns_record p st sub ip).2.2.filter (fun e => e.isWriteAttemptFor s)) =
      if s = sub then [Event.writeAttempt sub ip] else [] := by
  have hif : ∀ (rid : Nat) (robj : RecordObj),
      (if rid = 0 then Event.addZoneRecord sub robj
       else Event.updateZoneRecord sub robj).isWriteAttemptFor s = false := by
    intro rid robj
    split <;> rfl
  have hwa : (Event.writeAttempt sub ip).isWriteAttemptFor s = decide (s = sub) := by
    rw [isWriteAttemptFor_writeAttempt]
    by_cases hs : s = sub
    · simp [hs]
    · simp [hs, Ne.symm hs]
  by_cases h : (st.zone_record_ids sub).getD 0 = 0
  · rcases hg : p.getZoneRecords sub with e | l
    · rw [update_dns_record_lookup_err p st sub ip h hg]
      by_cases hs : s = sub
      · subst hs
        simp [List.filter_cons, hwa, isWriteAttemptFor_getZoneRecords]
      · simp [List.filter_cons, hwa, hs, isWriteAttemptFor_getZoneRecords]
    · rcases l with _ | ⟨r, t⟩
      · rw [update_dns_record_lookup_nil p st sub ip h hg, issueZoneWrite_trace]
        by_cases hs : s = sub
        · subst hs
          simp [List.filter_cons, List.filter_append, hwa,
            isWriteAttemptFor_getZoneRecords, isWriteAttemptFor_addZoneRecord,
            isWriteAttemptFor_updateZoneRecord, hif]
        · simp [List.filter_cons, List.filter_append, hwa, hs,
            isWriteAttemptFor_getZoneRecords, isWriteAttemptFor_addZoneRecord,
            isWriteAttemptFor_updateZoneRecord, hif]
      · rw [update_dns_record_lookup_cons p st sub ip r t h hg, issueZoneWrite_trace]
        by_cases hs : s = sub
        · subst hs
          simp [List.filter_cons, List.filter_append, hwa,
            isWriteAttemptFor_getZoneRecords, isWriteAttemptFor_addZoneRecord,
            isWriteAttemptFor_updateZoneRecord, hif]
        · simp [List.filter_cons, List.filter_append, hwa, hs,
            isWriteAttemptFor_getZoneRecords, isWriteAttemptFor_addZoneRecord,
            isWriteAttemptFor_updateZoneRecord, hif]
  · obtain ⟨id, hz, h0⟩ := cached_nonzero st sub h
    rw [update_dns_record_cached p st sub ip id hz h0, issueZoneWrite_trace]
    by_cases hs : s = sub
    · subst hs
      simp [List.filter_cons, List.filter_append, hwa, hif,
        isWriteAttemptFor_addZoneRecord, isWriteAttemptFor_updateZoneRecord]
    · simp [List.filter_cons, List.filter_append, hwa, hs, hif,
        isWriteAttemptFor_addZoneRecord, isWriteAttemptFor_updateZoneRecord]

theorem bool_eq_of_true_iff (a b : Bool) (h : a = true ↔ b = true) : a = b := by
  cases a <;> cases b <;> simp_all

/-- The Writer's result, its trace, and the cached identity it leaves for its
own subdomain depend on the prior state only through that subdomain's cached
identity. -/
theorem update_dns_record_congr (p : Provider) (st1 st2 : UpdaterState) (sub ip : String)
    (h : st1.zone_record_ids sub = st2.zone_record_ids sub) :
    (update_dns_record p st1 sub ip).1 = (update_dns_record p st2 sub ip).1
    ∧ (update_dns_record p st1 sub ip).2.2 = (update_dns_record p st2 sub ip).2.2
    ∧ (update_dns_record p st1 sub ip).2.1.zone_record_ids sub
        = (update_dns_record p st2 sub ip).2.1.zone_record_ids sub := by
  have hres : ∀ (s1 s2 : UpdaterState) (rid : Nat) (pre : List Event),
      (issueZoneWrite p s1 sub ip rid pre).1 = (issueZoneWrite p s2 sub ip rid pre).1 := by
    intro s1 s2 rid pre
    exact bool_eq_of_true_iff _ _
      ((issueZoneWrite_result p s1 sub ip rid pre).trans
        (issueZoneWrite_result p s2 sub ip rid pre).symm)
  by_cases hc : (st1.zone_record_ids sub).getD 0 = 0
  · have hc2 : (st2.zone_record_ids sub).getD 0 = 0 := by rw [← h]; exact hc
    rcases hg : p.getZoneRecords sub with e | l
    · rw [update_dns_record_lookup_err p st1 sub ip hc hg,
        update_dns_record_lookup_err p st2 sub ip hc2 hg]
      exact ⟨rfl, rfl, h⟩
    · rcases l with _ | ⟨r, t⟩
      · rw [update_dns_record_lookup_nil p st1 sub ip hc hg,
          update_dns_record_lookup_nil p st2 sub ip hc2 hg]
        refine ⟨hres .., ?_, ?_⟩
        · rw [issueZoneWrite_trace, issueZoneWrite_trace]
        · rw [issueZoneWrite_zone_record_ids, issueZoneWrite_zone_record_ids]
          exact h
      · rw [update_dns_record_lookup_cons p st1 sub ip r t hc hg,
          update_dns_record_lookup_cons p st2 sub ip r t hc2 hg]
        refine ⟨hres .., ?_, ?_⟩
        · rw [issueZoneWrite_trace, issueZoneWrite_trace]
        · rw [issueZoneWrite_zone_record_ids, issueZoneWrite_zone_record_ids]
          rw [UpdaterState.setZoneId_zone_record_ids, UpdaterState.setZoneId_zone_record_ids]
          simp
  · obtain ⟨id, hz, h0⟩ := cached_nonzero st1 sub hc
    have hz2 : st2.zone_record_ids sub = some id := by rw [← h]; exact hz
    rw [update_dns_record_cached p st1 sub ip id hz h0,
      update_dns_record_cached p st2 sub ip id hz2 h0]
    refine ⟨hres .., ?_, ?_⟩
    · rw [issueZoneWrite_trace, issueZoneWrite_trace]
    · rw [issueZoneWrite_zone_record_ids, issueZoneWrite_zone_record_ids, hz, hz2]

theorem subdomain_of_isWriteAttemptFor (e : Event) (s : String)
    (h : e.isWriteAttemptFor s = true) : e.subdomain = s := by
  cases e with
  | writeAttempt s' ip => exact of_decide_eq_true h
  | getZoneRecords s' => cases h
  | addZoneRecord s' r => cases h
  | updateZoneRecord s' r => cases h

theorem subdomain_of_isLookupFor (e : Event) (s : String)
    (h : e.isLookupFor s = true) : e.subdomain = s := by
  cases e with
  | writeAttempt s' ip => cases h
  | getZoneRecords s' => exact of_decide_eq_true h
  | addZoneRecord s' r => cases h
  | updateZoneRecord s' r => cases h

/-! ### Lemmas about the per-subdomain loop of `update_all_records` -/

/-- Subdomains outside the iterated list are untouched: their result entry,
applied IP and cached identity all stay as they were. -/
theorem update_loop_frame (p : Provider) (new_ip : String) (subs : List String)
    (st : UpdaterState) (results : String → Option Bool) (s : String) (hs : s ∉ subs) :
    (update_loop p new_ip subs st results).1 s = results s
    ∧ (update_loop p new_ip subs st results).2.1.current_ips s = st.current_ips s
    ∧ (update_loop p new_ip subs st results).2.1.zone_record_ids s = st.zone_record_ids s := by
  induction subs generalizing st results with
  | nil => exact ⟨rfl, rfl, rfl⟩
  | cons a rest ih =>
    have hsa : s ≠ a := fun h => hs (h ▸ List.mem_cons_self a rest)
    have hsr : s ∉ rest := fun h => hs (List.mem_cons_of_mem a h)
    simp only [update_loop]
    by_cases hc : st.current_ips a = some new_ip
    · rw [if_neg (not_not_intro hc)]
      have ihr := ih st (fun x => if x = a then some true else results x) hsr
      refine ⟨?_, ihr.2.1, ihr.2.2⟩
      rw [ihr.1]
      simp [hsa]
    · rw [if_pos hc]
      have ihr := ih (update_dns_record p st a new_ip).2.1
        (fun x => if x = a then some (update_dns_record p st a new_ip).1 else results x) hsr
      refine ⟨?_, ?_, ?_⟩
      · rw [ihr.1]
        simp [hsa]
      · rw [ihr.2.1, update_dns_record_current_ips]
        simp [hsa]
      · rw [ihr.2.2, update_dns_record_zone_frame p st a new_ip s hsa]

/-- Every event of a cycle's trace concerns some iterated subdomain. -/
theorem update_loop_events_sub (p : Provider) (new_ip : String) (subs : List String)
    (st : UpdaterState) (results : String → Option Bool) :
    ∀ e ∈ (update_loop p new_ip subs st results).2.2, e.subdomain ∈ subs := by
  induction subs generalizing st results with
  | nil =>
    intro e he
    simp [update_loop] at he
  | cons a rest ih =>
    intro e he
    simp only [update_loop] at he
    by_cases hc : st.current_ips a = some new_ip
    · rw [if_neg (not_not_intro hc)] at he
      exact List.mem_cons_of_mem a (ih st _ e he)
    · rw [if_pos hc] at he
      rcases List.mem_append.1 he with h1 | h2
      · rw [update_dns_record_events_sub p st a new_ip e h1]
        exact List.mem_cons_self a rest
      · exact List.mem_cons_of_mem a (ih _ _ e h2)

/-- Core lemma for a subdomain whose applied IP differs from the resolved IP:
its Writer is invoked exactly once (from the state of the moment, which at
that subdomain coincides with the cycle's initial state), its result lands in
the results dictionary, and the applied IP becomes the resolved IP exactly on
success. -/
theorem update_loop_mem_diff (p : Provider) (new_ip : String) (subs : List String)
    (st : UpdaterState) (results : String → Option Bool) (sub : String) :
    subs.Nodup → sub ∈ subs → st.current_ips sub ≠ some new_ip →
    (update_loop p new_ip subs st results).1 sub = some (update_dns_record p st sub new_ip).1
    ∧ (update_loop p new_ip subs st results).2.1.current_ips sub =
        (if (update_dns_record p st sub new_ip).1 = true then some new_ip
         else st.current_ips sub)
    ∧ (update_loop p new_ip subs st results).2.1.zone_record_ids sub =
        (update_dns_record p st sub new_ip).2.1.zone_record_ids sub
    ∧ ((update_loop p new_ip subs st results).2.2.filter (fun e => e.isWriteAttemptFor sub)) =
        [Event.writeAttempt sub new_ip] := by
  induction subs generalizing st results with
  | nil =>
    intro _ hmem _
    cases hmem
  | cons a rest ih =>
    intro hnd hmem hdiff
    have hand := List.nodup_cons.1 hnd
    simp only [update_loop]
    rcases List.mem_cons.1 hmem with rfl | hsubr
    · rw [if_pos hdiff]
      have hfr := update_loop_frame p new_ip rest (update_dns_record p st sub new_ip).2.1
        (fun x => if x = sub then some (update_dns_record p st sub new_ip).1 else results x)
        sub hand.1
      refine ⟨?_, ?_, hfr.2.2, ?_⟩
      · rw [hfr.1]
        simp
      · rw [hfr.2.1, update_dns_record_current_ips]
        simp
      · rw [List.filter_append, update_dns_record_filterWA]
        have hnil : ((update_loop p new_ip rest (update_dns_record p st sub new_ip).2.1
            (fun x => if x = sub then some (update_dns_record p st sub new_ip).1 else results x)).2.2.filter
              (fun e => e.isWriteAttemptFor sub)) = [] := by
          rw [List.filter_eq_nil_iff]
          intro e he hwa
          exact hand.1 (subdomain_of_isWriteAttemptFor e sub hwa ▸
            update_loop_events_sub p new_ip rest _ _ e he)
        rw [hnil]
        simp
    · have hasub : a ≠ sub := fun h => hand.1 (h ▸ hsubr)
      by_cases hca : st.current_ips a = some new_ip
      · rw [if_neg (not_not_intro hca)]
        exact ih st _ hand.2 hsubr hdiff
      · rw [if_pos hca]
        have hips : (update_dns_record p st a new_ip).2.1.current_ips sub = st.current_ips sub := by
          rw [update_dns_record_current_ips]
          simp [Ne.symm hasub]
        have hzone : (update_dns_record p st a new_ip).2.1.zone_record_ids sub
            = st.zone_record_ids sub :=
          update_dns_record_zone_frame p st a new_ip sub (Ne.symm hasub)
        have hdiff1 : (update_dns_record p st a new_ip).2.1.current_ips sub ≠ some new_ip := by
          rw [hips]
          exact hdiff
        have hcongr := update_dns_record_congr p (update_dns_record p st a new_ip).2.1 st sub
          new_ip hzone
        have ihr := ih (update_dns_record p st a new_ip).2.1
          (fun x => if x = a then some (update_dns_record p st a new_ip).1 else results x)
          hand.2 hsubr hdiff1
        refine ⟨?_, ?_, ?_, ?_⟩
        · rw [ihr.1, hcongr.1]
        · rw [ihr.2.1, hcongr.1, hips]
        · rw [ihr.2.2.1, hcongr.2.2]
        · rw [List.filter_append, ihr.2.2.2, update_dns_record_filterWA]
          simp [Ne.symm hasub]

/-- Core lemma for a subdomain whose applied IP already equals the resolved
IP: the cycle records `True` for it, changes nothing about it, and emits no
event concerning it. -/
theorem update_loop_mem_eq (p : Provider) (new_ip : String) (subs : List String)
    (st : UpdaterState) (results : String → Option Bool) (sub : String) :
    subs.Nodup → sub ∈ subs → st.current_ips sub = some new_ip →
    (update_loop p new_ip subs st results).1 sub = some true
    ∧ (update_loop p new_ip subs st results).2.1.current_ips sub = st.current_ips sub
    ∧ (update_loop p new_ip subs st results).2.1.zone_record_ids sub = st.zone_record_ids sub
    ∧ ∀ e ∈ (update_loop p new_ip subs st results).2.2, e.subdomain ≠ sub := by
  induction subs generalizing st results with
  | nil =>
    intro _ hmem _
    cases hmem
  | cons a rest ih =>
    intro hnd hmem heq
    have hand := List.nodup_cons.1 hnd
    simp only [update_loop]
    rcases List.mem_cons.1 hmem with rfl | hsubr
    · rw [if_neg (not_not_intro heq)]
      have hfr := update_loop_frame p new_ip rest st
        (fun x => if x = sub then some true else results x) sub hand.1
      refine ⟨?_, hfr.2.1, hfr.2.2, ?_⟩
      · rw [hfr.1]
        simp
      · intro e he hesub
        exact hand.1 (hesub ▸ update_loop_events_sub p new_ip rest _ _ e he)
    · have hasub : a ≠ sub := fun h => hand.1 (h ▸ hsubr)
      by_cases hca : st.current_ips a = some new_ip
      · rw [if_neg (not_not_intro hca)]
        exact ih st _ hand.2 hsubr heq
      · rw [if_pos hca]
        have hips : (update_dns_record p st a new_ip).2.1.current_ips sub = st.current_ips sub := by
          rw [update_dns_record_current_ips]
          simp [Ne.symm hasub]
        have hzone : (update_dns_record p st a new_ip).2.1.zone_record_ids sub
            = st.zone_record_ids sub :=
          update_dns_record_zone_frame p st a new_ip sub (Ne.symm hasub)
        have heq1 : (update_dns_record p st a new_ip).2.1.current_ips sub = some new_ip := by
          rw [hips]
          exact heq
        have ihr := ih (update_dns_record p st a new_ip).2.1
          (fun x => if x = a then some (update_dns_record p st a new_ip).1 else results x)
          hand.2 hsubr heq1
        refine ⟨ihr.1, ?_, ?_, ?_⟩
        · rw [ihr.2.1, hips]
        · rw [ihr.2.2.1, hzone]
        · intro e he
          rcases List.mem_append.1 he with h1 | h2
          · rw [update_dns_record_events_sub p st a new_ip e h1]
            exact hasub
          · exact ihr.2.2.2 e h2

/-- When every iterated subdomain is already current, the loop records `True`
for each of them, leaves the state object untouched and issues no call. -/
theorem update_loop_all_current (p : Provider) (new_ip : String) (subs : List String)
    (st : UpdaterState) (results : String → Option Bool) :
    (∀ s ∈ subs, st.current_ips s = some new_ip) →
    (update_loop p new_ip subs st results).2.1 = st
    ∧ (update_loop p new_ip subs st results).2.2 = []
    ∧ ∀ s ∈ subs, (update_loop p new_ip subs st results).1 s = some true := by
  induction subs generalizing results with
  | nil =>
    intro _
    refine ⟨rfl, rfl, ?_⟩
    intro s hs
    cases hs
  | cons a rest ih =>
    intro h
    have ha := h a (List.mem_cons_self a rest)
    simp only [update_loop]
    rw [if_neg (not_not_intro ha)]
    have ihr := ih (fun x => if x = a then some true else results x)
      (fun s hs => h s (List.mem_cons_of_mem a hs))
    refine ⟨ihr.1, ihr.2.1, ?_⟩
    intro s hs
    rcases List.mem_cons.1 hs with rfl | hsr
    · by_cases hsrest : s ∈ rest
      · exact ihr.2.2 s hsrest
      · have hfr := update_loop_frame p new_ip rest st
          (fun x => if x = s then some true else results x) s hsrest
        rw [hfr.1]
        simp
    · exact ihr.2.2 s hsr

/-! ### Stability of a populated record identity -/

/-- A populated nonzero record identity survives any single Writer invocation,
and that invocation issues no `getZoneRecords` lookup for the subdomain whose
identity is populated. -/
theorem update_dns_record_preserves_cached (p : Provider) (st : UpdaterState)
    (sub' ip sub : String) (id : Nat) :
    st.zone_record_ids sub = some id → id ≠ 0 →
    (update_dns_record p st sub' ip).2.1.zone_record_ids sub = some id
    ∧ Event.getZoneRecords sub ∉ (update_dns_record p st sub' ip).2.2 := by
  intro hz h0
  by_cases hss : sub' = sub
  · subst hss
    rw [update_dns_record_cached p st sub' ip id hz h0, issueZoneWrite_zone_record_ids,
      issueZoneWrite_trace]
    refine ⟨hz, ?_⟩
    intro hmem
    simp only [List.mem_append, List.mem_cons, List.not_mem_nil, or_false] at hmem
    rcases hmem with hmem | hmem
    · cases hmem
    · revert hmem
      split <;> intro hmem <;> cases hmem
  · refine ⟨?_, ?_⟩
    · rw [update_dns_record_zone_frame p st sub' ip sub (fun h => hss h.symm)]
      exact hz
    · intro hmem
      exact hss (update_dns_record_events_sub p st sub' ip _ hmem).symm

/-- A populated nonzero record identity survives a whole per-subdomain loop,
which issues no lookup for it. -/
theorem update_loop_preserves_cached (p : Provider) (new_ip : String) (subs : List String)
    (st : UpdaterState) (results : String → Option Bool) (sub : String) (id : Nat) :
    st.zone_record_ids sub = some id → id ≠ 0 →
    (update_loop p new_ip subs st results).2.1.zone_record_ids sub = some id
    ∧ Event.getZoneRecords sub ∉ (update_loop p new_ip subs st results).2.2 := by
  induction subs generalizing st results with
  | nil =>
    intro hz _
    exact ⟨hz, by simp [update_loop]⟩
  | cons a rest ih =>
    intro hz h0
    simp only [update_loop]
    by_cases hc : st.current_ips a = some new_ip
    · rw [if_neg (not_not_intro hc)]
      exact ih st _ hz h0
    · rw [if_pos hc]
      have hstep := update_dns_record_preserves_cached p st a new_ip sub id hz h0
      have ihr := ih (update_dns_record p st a new_ip).2.1
        (fun x => if x = a then some (update_dns_record p st a new_ip).1 else results x)
        hstep.1 h0
      refine ⟨ihr.1, ?_⟩
      intro hmem
      rcases List.mem_append.1 hmem with h1 | h2
      · exact hstep.2 h1
      · exact ihr.2 h2

theorem update_all_records_ok (new_ip : String) (p : Provider) (st : UpdaterState)
    (subs : List String) :
    update_all_records (Except.ok new_ip) p st subs =
      update_loop p new_ip subs st (fun _ => none) := rfl

theorem update_all_records_err (p : Provider) (st : UpdaterState) (subs : List String) :
    update_all_records (Except.error ()) p st subs =
      (fun s => if subs.contains s then some false else none, st, []) := rfl

/-- A populated nonzero record identity survives a whole cycle, which issues
no lookup for it. -/
theorem update_all_records_preserves_cached (ipResult : Except Unit String) (p : Provider)
    (st : UpdaterState) (subs : List String) (sub : String) (id : Nat) :
    st.zone_record_ids sub = some id → id ≠ 0 →
    (update_all_records ipResult p st subs).2.1.zone_record_ids sub = some id
    ∧ Event.getZoneRecords sub ∉ (update_all_records ipResult p st subs).2.2 := by
  intro hz h0
  rcases ipResult with e | new_ip
  · cases e
    rw [update_all_records_err]
    exact ⟨hz, by simp⟩
  · rw [update_all_records_ok]
    exact update_loop_preserves_cached p new_ip subs st _ sub id hz h0

/-- A populated nonzero record identity survives the rest of the process run,
during which no further `getZoneRecords` lookup for its subdomain occurs. -/
theorem run_cycles_preserves_cached (subs : List String)
    (cycles : List (Except Unit String × Provider)) (st : UpdaterState)
    (sub : String) (id : Nat) :
    st.zone_record_ids sub = some id → id ≠ 0 →
    (run_cycles subs cycles st).1.zone_record_ids sub = some id
    ∧ Event.getZoneRecords sub ∉ (run_cycles subs cycles st).2 := by
  induction cycles generalizing st with
  | nil =>
    intro hz _
    exact ⟨hz, by simp [run_cycles]⟩
  | cons c rest ih =>
    intro hz h0
    rcases c with ⟨ipResult, p⟩
    have hstep := update_all_records_preserves_cached ipResult p st subs sub id hz h0
    have ihr := ih (update_all_records ipResult p st subs).2.1 hstep.1 h0
    refine ⟨ihr.1, ?_⟩
    intro hmem
    simp only [run_cycles, List.mem_append] at hmem
    rcases hmem with h1 | h2
    · exact hstep.2 h1
    · exact ihr.2 h2

theorem get_public_ip_err_of_no_success (services : List ServiceResult)
    (h : ∀ ip, ServiceResult.success ip ∉ services) :
    get_public_ip services = Except.error () := by
  induction services with
  | nil => rfl
  | cons a rest ih =>
    cases a with
    | success ip => exact absurd (List.mem_cons_self _ _) (h ip)
    | malformed => exact ih fun ip hm => h ip (List.mem_cons_of_mem _ hm)
    | failure => exact ih fun ip hm => h ip (List.mem_cons_of_mem _ hm)

/-! ### The claims -/

/-- Claim C1: in a cycle, every subdomain whose Applied-IP State differs from
the resolved IP gets exactly one write attempt, targeting the resolved IP; on
success its Applied-IP State becomes the resolved IP and the result set maps
it to `true`; on failure its Applied-IP State is unchanged and the result set
maps it to `false`. -/
theorem c1_changed_subdomain_one_write (p : Provider) (st : UpdaterState) (subs : List String)
    (new_ip sub : String) (hnd : subs.Nodup) (hmem : sub ∈ subs)
    (hdiff : st.current_ips sub ≠ some new_ip) :
    ((update_all_records (Except.ok new_ip) p st subs).2.2.filter
        (fun e => e.isWriteAttemptFor sub)) = [Event.writeAttempt sub new_ip]
    ∧ (update_all_records (Except.ok new_ip) p st subs).1 sub
        = some (update_dns_record p st sub new_ip).1
    ∧ ((update_dns_record p st sub new_ip).1 = true →
        (update_all_records (Except.ok new_ip) p st subs).2.1.current_ips sub = some new_ip)
    ∧ ((update_dns_record p st sub new_ip).1 = false →
        (update_all_records (Except.ok new_ip) p st subs).2.1.current_ips sub
          = st.current_ips sub) := by
  rw [update_all_records_ok]
  have h := update_loop_mem_diff p new_ip subs st (fun _ => none) sub hnd hmem hdiff
  refine ⟨h.2.2.2, h.1, ?_, ?_⟩
  · intro ht
    rw [h.2.1, if_pos ht]
  · intro hf
    rw [h.2.1, if_neg (by simp [hf])]

/-- Witness for C1, the spec's scenario: targets ["www","@"] both applied at
1.1.1.1, resolved IP 2.2.2.2, the "www" write succeeding and the "@" write
failing. -/
theorem c1_witness :
    (update_all_records (Except.ok "2.2.2.2") pScenario st11 ["www", "@"]).1 "www" = some true
    ∧ (update_all_records (Except.ok "2.2.2.2") pScenario st11 ["www", "@"]).1 "@" = some false
    ∧ (update_all_records (Except.ok "2.2.2.2") pScenario st11
        ["www", "@"]).2.1.current_ips "www" = some "2.2.2.2"
    ∧ (update_all_records (Except.ok "2.2.2.2") pScenario st11
        ["www", "@"]).2.1.current_ips "@" = some "1.1.1.1" := by
  have h1 := c1_changed_subdomain_one_write pScenario st11 ["www", "@"] "2.2.2.2" "www"
    (by decide) (by decide) (by decide)
  have h2 := c1_changed_subdomain_one_write pScenario st11 ["www", "@"] "2.2.2.2" "@"
    (by decide) (by decide) (by decide)
  refine ⟨?_, ?_, h1.2.2.1 (by decide), ?_⟩
  · rw [h1.2.1]
    rfl
  · rw [h2.2.1]
    rfl
  · rw [h2.2.2.2 (by decide)]
    rfl

/-- Claim C2 is false as stated: with an empty zone, the first cycle's lookup
finds no record, nothing is cached, and a second cycle with a changed IP looks
up again — two `getZoneRecords` calls for "www" in one process lifetime even
though writes were attempted. -/
theorem c2_counterexample :
    (((run_cycles ["www"] [(Except.ok "1.1.1.1", pOkEmpty), (Except.ok "2.2.2.2", pOkEmpty)]
        initState).2).filter (fun e => e.isWriteAttemptFor "www")).length = 2
    ∧ (((run_cycles ["www"] [(Except.ok "1.1.1.1", pOkEmpty), (Except.ok "2.2.2.2", pOkEmpty)]
        initState).2).filter (fun e => e.isLookupFor "www")).length = 2 := by
  constructor <;> rfl

/-- Claim C2 (amended): once a lookup has found an existing record and its
nonzero identity has been cached for a subdomain, no later write attempt for
that subdomain issues another lookup for the rest of the process lifetime,
and the cached identity never changes; a lookup that found no record caches
nothing, so a later write attempt may look up again. -/
theorem c2_amended_no_relookup_once_populated (subs : List String)
    (cycles : List (Except Unit String × Provider)) (st : UpdaterState)
    (sub : String) (id : Nat) (h : st.zone_record_ids sub = some id) (h0 : id ≠ 0) :
    (run_cycles subs cycles st).1.zone_record_ids sub = some id
    ∧ Event.getZoneRecords sub ∉ (run_cycles subs cycles st).2 :=
  run_cycles_preserves_cached subs cycles st sub id h h0

/-- Witness for the amended C2: with identity 42 cached for "www", a further
cycle issues no lookup and keeps the identity. -/
theorem c2_amended_witness :
    (run_cycles ["www", "@"] [(Except.ok "2.2.2.2", pOkEmpty)]
        stCached).1.zone_record_ids "www" = some 42
    ∧ Event.getZoneRecords "www" ∉
        (run_cycles ["www", "@"] [(Except.ok "2.2.2.2", pOkEmpty)] stCached).2 :=
  c2_amended_no_relookup_once_populated ["www", "@"] [(Except.ok "2.2.2.2", pOkEmpty)]
    stCached "www" 42 rfl (by decide)

/-- Claim C3: when every IP-echo service fails, the cycle touches no
subdomain's state, issues no call at all, reports `false` for every
subdomain, and the endless loop simply proceeds to the next cycle with the
state unchanged. -/
theorem c3_resolution_failure_is_contained (services : List ServiceResult) (p : Provider)
    (st : UpdaterState) (subs : List String)
    (cycles : List (Except Unit String × Provider))
    (hfail : ∀ ip, ServiceResult.success ip ∉ services) :
    (update_all_records (get_public_ip services) p st subs).2.1 = st
    ∧ (update_all_records (get_public_ip services) p st subs).2.2 = []
    ∧ (∀ s ∈ subs, (update_all_records (get_public_ip services) p st subs).1 s = some false)
    ∧ run_cycles subs ((get_public_ip services, p) :: cycles) st = run_cycles subs cycles st := by
  rw [get_public_ip_err_of_no_success services hfail, update_all_records_err]
  refine ⟨rfl, rfl, ?_, ?_⟩
  · intro s hs
    simp [hs]
  · rfl

/-- Witness for C3: two failing services, one target, one pending cycle. -/
theorem c3_witness :
    (update_all_records (get_public_ip [ServiceResult.failure, ServiceResult.malformed])
        pOkEmpty st11 ["www"]).2.1 = st11
    ∧ (update_all_records (get_public_ip [ServiceResult.failure, ServiceResult.malformed])
        pOkEmpty st11 ["www"]).2.2 = []
    ∧ (update_all_records (get_public_ip [ServiceResult.failure, ServiceResult.malformed])
        pOkEmpty st11 ["www"]).1 "www" = some false := by
  have h := c3_resolution_failure_is_contained [ServiceResult.failure, ServiceResult.malformed]
    pOkEmpty st11 ["www"] [] (by intro ip hm; simp at hm)
  exact ⟨h.1, h.2.1, h.2.2.1 "www" (by decide)⟩

/-- Claim C4: with no cached identity, the Writer's lookup precedes any
create/update call; a lookup that finds a record with nonzero identity leads
to an update addressed by that identity, a lookup that finds nothing leads to
a create with identity zero, and a lookup that raises leads to no
create/update call at all. -/
theorem c4_lookup_before_write (p : Provider) (st : UpdaterState) (sub ip : String)
    (hc : st.zone_record_ids sub = none) :
    (p.getZoneRecords sub = Except.error () →
      (update_dns_record p st sub ip).2.2 =
        [Event.writeAttempt sub ip, Event.getZoneRecords sub])
    ∧ (∀ (r : ZoneRecord) (t : List ZoneRecord),
        p.getZoneRecords sub = Except.ok (r :: t) → r.record_id ≠ 0 →
        (update_dns_record p st sub ip).2.2 =
          [Event.writeAttempt sub ip, Event.getZoneRecords sub,
           Event.updateZoneRecord sub (mkRecordObj ip r.record_id)])
    ∧ (p.getZoneRecords sub = Except.ok [] →
        (update_dns_record p st sub ip).2.2 =
          [Event.writeAttempt sub ip, Event.getZoneRecords sub,
           Event.addZoneRecord sub (mkRecordObj ip 0)]) := by
  have h0 : (st.zone_record_ids sub).getD 0 = 0 := by rw [hc]; rfl
  refine ⟨?_, ?_, ?_⟩
  · intro hg
    rw [update_dns_record_lookup_err p st sub ip h0 hg]
  · intro r t hg hr
    rw [update_dns_record_lookup_cons p st sub ip r t h0 hg, issueZoneWrite_trace]
    simp [hr]
  · intro hg
    rw [update_dns_record_lookup_nil p st sub ip h0 hg, issueZoneWrite_trace]
    simp

/-- Witness for C4: cold start, lookup returns identity 42, and the Writer
issues an update (not a create) addressed by 42, after the lookup. -/
theorem c4_witness :
    (update_dns_record p42 initState "www" "2.2.2.2").2.2 =
      [Event.writeAttempt "www" "2.2.2.2", Event.getZoneRecords "www",
       Event.updateZoneRecord "www" (mkRecordObj "2.2.2.2" 42)] :=
  (c4_lookup_before_write p42 initState "www" "2.2.2.2" rfl).2.1
    { record_id := 42 } [] rfl (by decide)

/-- Claim C5: the Writer reports success exactly when the provider's status
response to the one create/update call it issued equals the literal sentinel
"OK"; every other status, and every raised exception (in the lookup or in the
write), yields `false`. -/
theorem c5_success_iff_ok_sentinel (p : Provider) (st : UpdaterState) (sub ip : String) :
    (update_dns_record p st sub ip).1 = true ↔
      (∃ record, Event.addZoneRecord sub record ∈ (update_dns_record p st sub ip).2.2
        ∧ p.addZoneRecord sub record = Except.ok "OK")
      ∨ (∃ record, Event.updateZoneRecord sub record ∈ (update_dns_record p st sub ip).2.2
        ∧ p.updateZoneRecord sub record = Except.ok "OK") := by
  by_cases h : (st.zone_record_ids sub).getD 0 = 0
  · rcases hg : p.getZoneRecords sub with e | l
    · rw [update_dns_record_lookup_err p st sub ip h hg]
      simp
    · rcases l with _ | ⟨r, t⟩
      · rw [update_dns_record_lookup_nil p st sub ip h hg, issueZoneWrite_result,
          issueZoneWrite_trace]
        simp
      · rw [update_dns_record_lookup_cons p st sub ip r t h hg, issueZoneWrite_result,
          issueZoneWrite_trace]
        by_cases hr : r.record_id = 0
        · simp [hr]
        · simp [hr]
  · obtain ⟨id, hz, h0⟩ := cached_nonzero st sub h
    rw [update_dns_record_cached p st sub ip id hz h0, issueZoneWrite_result,
      issueZoneWrite_trace]
    simp [h0]

/-- Witness for C5: an update returning "OK" makes the Writer report success. -/
theorem c5_witness : (update_dns_record p42 initState "www" "2.2.2.2").1 = true := by
  apply (c5_success_iff_ok_sentinel p42 initState "www" "2.2.2.2").2
  right
  exact ⟨mkRecordObj "2.2.2.2" 42, by decide, rfl⟩

/-- Claim C6: a failing write on one subdomain (here expressed as its Writer
invocation returning `false`, which covers raised provider exceptions) does
not prevent another changed subdomain in the same cycle from being evaluated
and written: its failure is recorded as `false` in the result set, the other
subdomain's write attempt still occurs and its own result is recorded. -/
theorem c6_failure_does_not_block_others (p : Provider) (st : UpdaterState)
    (subs : List String) (new_ip a b : String) (hnd : subs.Nodup)
    (ha : a ∈ subs) (hb : b ∈ subs) (_hab : a ≠ b)
    (hdiffa : st.current_ips a ≠ some new_ip)
    (hfaila : (update_dns_record p st a new_ip).1 = false)
    (hdiffb : st.current_ips b ≠ some new_ip) :
    (update_all_records (Except.ok new_ip) p st subs).1 a = some false
    ∧ Event.writeAttempt b new_ip ∈ (update_all_records (Except.ok new_ip) p st subs).2.2
    ∧ (update_all_records (Except.ok new_ip) p st subs).1 b
        = some (update_dns_record p st b new_ip).1 := by
  rw [update_all_records_ok]
  have hA := update_loop_mem_diff p new_ip subs st (fun _ => none) a hnd ha hdiffa
  have hB := update_loop_mem_diff p new_ip subs st (fun _ => none) b hnd hb hdiffb
  refine ⟨?_, ?_, hB.1⟩
  · rw [hA.1, hfaila]
  · have hmem : Event.writeAttempt b new_ip ∈
        ((update_loop p new_ip subs st (fun _ => none)).2.2.filter
          (fun e => e.isWriteAttemptFor b)) := by
      rw [hB.2.2.2]
      exact List.mem_singleton.2 rfl
    exact List.mem_of_mem_filter hmem

/-- Witness for C6: the "@" lookup raises (its write fails) and "www" is
still attempted and succeeds in the same cycle. -/
theorem c6_witness :
    (update_all_records (Except.ok "2.2.2.2") pRaiseAt initState ["@", "www"]).1 "@"
      = some false
    ∧ Event.writeAttempt "www" "2.2.2.2" ∈
        (update_all_records (Except.ok "2.2.2.2") pRaiseAt initState ["@", "www"]).2.2
    ∧ (update_all_records (Except.ok "2.2.2.2") pRaiseAt initState ["@", "www"]).1 "www"
        = some (update_dns_record pRaiseAt initState "www" "2.2.2.2").1 :=
  c6_failure_does_not_block_others pRaiseAt initState ["@", "www"] "2.2.2.2" "@" "www"
    (by decide) (by decide) (by decide) (by decide) (by decide) (by decide) (by decide)

/-- Claim C7: a subdomain whose Applied-IP State equals the resolved IP gets
no call of any kind in the cycle, keeps both state entries, and is reported
as `true`; when every target is already current the whole cycle issues no
call and returns the state object unchanged. -/
theorem c7_no_change_no_write (p : Provider) (st : UpdaterState) (subs : List String)
    (new_ip sub : String) (hnd : subs.Nodup) (hmem : sub ∈ subs)
    (heq : st.current_ips sub = some new_ip) :
    (∀ e ∈ (update_all_records (Except.ok new_ip) p st subs).2.2, e.subdomain ≠ sub)
    ∧ (update_all_records (Except.ok new_ip) p st subs).1 sub = some true
    ∧ (update_all_records (Except.ok new_ip) p st subs).2.1.current_ips sub
        = st.current_ips sub
    ∧ (update_all_records (Except.ok new_ip) p st subs).2.1.zone_record_ids sub
        = st.zone_record_ids sub
    ∧ ((∀ s ∈ subs, st.current_ips s = some new_ip) →
        (update_all_records (Except.ok new_ip) p st subs).2.1 = st
        ∧ (update_all_records (Except.ok new_ip) p st subs).2.2 = []) := by
  rw [update_all_records_ok]
  have h := update_loop_mem_eq p new_ip subs st (fun _ => none) sub hnd hmem heq
  refine ⟨h.2.2.2, h.1, h.2.1, h.2.2.1, ?_⟩
  intro hall
  have h2 := update_loop_all_current p new_ip subs st (fun _ => none) hall
  exact ⟨h2.1, h2.2.1⟩

/-- Witness for C7: with every target already at 1.1.1.1, a cycle at the same
IP reports success, performs no call and leaves the state object untouched. -/
theorem c7_witness :
    (update_all_records (Except.ok "1.1.1.1") pOkEmpty stCached ["www", "@"]).1 "www"
      = some true
    ∧ (update_all_records (Except.ok "1.1.1.1") pOkEmpty stCached ["www", "@"]).2.1 = stCached
    ∧ (update_all_records (Except.ok "1.1.1.1") pOkEmpty stCached ["www", "@"]).2.2 = [] := by
  have h := c7_no_change_no_write pOkEmpty stCached ["www", "@"] "1.1.1.1" "www"
    (by decide) (by decide) rfl
  have h2 := h.2.2.2.2 (by intro s hs; rfl)
  exact ⟨h.2.1, h2.1, h2.2⟩

/-- Claim C8: the resolver walks the services in their fixed order and
returns the (unvalidated) IP of the first successful one; it raises exactly
when no service succeeds. -/
theorem c8_resolver_first_success (services : List ServiceResult) :
    get_public_ip services = (match firstSuccessIp services with
      | some ip => Except.ok ip
      | none => Except.error ())
    ∧ (get_public_ip services = Except.error () ↔
        ∀ ip, ServiceResult.success ip ∉ services) := by
  induction services with
  | nil =>
    refine ⟨rfl, ?_⟩
    simp [get_public_ip]
  | cons a rest ih =>
    cases a with
    | success ip =>
      refine ⟨rfl, ⟨fun h => ?_, fun h => ?_⟩⟩
      · exact Except.noConfusion h
      · exact absurd (List.mem_cons_self (ServiceResult.success ip) rest) (h ip)
    | malformed =>
      refine ⟨ih.1, ?_⟩
      rw [show get_public_ip (ServiceResult.malformed :: rest) = get_public_ip rest from rfl,
        ih.2]
      constructor
      · intro h ip hm
        rcases List.mem_cons.1 hm with he | hm'
        · exact ServiceResult.noConfusion he
        · exact h ip hm'
      · intro h ip hm
        exact h ip (List.mem_cons_of_mem _ hm)
    | failure =>
      refine ⟨ih.1, ?_⟩
      rw [show get_public_ip (ServiceResult.failure :: rest) = get_public_ip rest from rfl,
        ih.2]
      constructor
      · intro h ip hm
        rcases List.mem_cons.1 hm with he | hm'
        · exact ServiceResult.noConfusion he
        · exact h ip hm'
      · intro h ip hm
        exact h ip (List.mem_cons_of_mem _ hm)

/-- Witness for C8: the first successful service's IP is returned. -/
theorem c8_witness :
    get_public_ip [ServiceResult.failure, ServiceResult.malformed,
      ServiceResult.success "203.0.113.9", ServiceResult.success "9.9.9.9"]
      = Except.ok "203.0.113.9" :=
  (c8_resolver_first_success [ServiceResult.failure, ServiceResult.malformed,
    ServiceResult.success "203.0.113.9", ServiceResult.success "9.9.9.9"]).1

/-- Claim C9: `get_value_by_key` returns the value of the first entry whose
key matches, and `None` when no entry's key matches. -/
theorem c9_get_value_by_key_first_match (α : Type) (l : List (KV α)) (k : String) :
    get_value_by_key l k = ((l.find? fun item => item.key == k).map fun item => item.value)
    ∧ ((∀ item ∈ l, item.key ≠ k) → get_value_by_key l k = none) := by
  have h1 : get_value_by_key l k
      = ((l.find? fun item => item.key == k).map fun item => item.value) := by
    induction l with
    | nil => rfl
    | cons a rest ih =>
      by_cases hk : a.key = k
      · simp [get_value_by_key, hk]
      · simp [get_value_by_key, hk, ih]
  refine ⟨h1, fun h => ?_⟩
  rw [h1, List.find?_eq_none.2 ?_]
  · rfl
  · intro x hx
    simpa using h x hx

/-- Witness for C9: a present key yields its first value, an absent key
yields `None`. -/
theorem c9_witness :
    get_value_by_key kvExample "LOOPIA_USERNAME" = some "user"
    ∧ get_value_by_key kvExample "MISSING" = none := by
  have h1 := c9_get_value_by_key_first_match String kvExample "LOOPIA_USERNAME"
  have h2 := c9_get_value_by_key_first_match String kvExample "MISSING"
  refine ⟨?_, h2.2 (by decide)⟩
  rw [h1.1]
  rfl

/-- Claim C10: with no cached identity, a lookup that finds a record caches
its identity before the update call, so a failing update still leaves the
Record-Identity State populated while the Applied-IP State is unchanged
everywhere. -/
theorem c10_failed_write_still_caches_identity (p : Provider) (st : UpdaterState)
    (sub ip : String) (r : ZoneRecord) (t : List ZoneRecord)
    (hnone : st.zone_record_ids sub = none)
    (hlk : p.getZoneRecords sub = Except.ok (r :: t)) (hr : r.record_id ≠ 0)
    (hupd : p.updateZoneRecord sub (mkRecordObj ip r.record_id) ≠ Except.ok "OK") :
    (update_dns_record p st sub ip).1 = false
    ∧ (update_dns_record p st sub ip).2.1.zone_record_ids sub = some r.record_id
    ∧ ∀ s, (update_dns_record p st sub ip).2.1.current_ips s = st.current_ips s := by
  have h0 : (st.zone_record_ids sub).getD 0 = 0 := by rw [hnone]; rfl
  rw [update_dns_record_lookup_cons p st sub ip r t h0 hlk]
  have hres : (issueZoneWrite p (st.setZoneId sub r.record_id) sub ip r.record_id
      [Event.writeAttempt sub ip, Event.getZoneRecords sub]).1 = false := by
    cases hb : (issueZoneWrite p (st.setZoneId sub r.record_id) sub ip r.record_id
        [Event.writeAttempt sub ip, Event.getZoneRecords sub]).1 with
    | false => rfl
    | true =>
      have h1 := (issueZoneWrite_result p (st.setZoneId sub r.record_id) sub ip r.record_id
        [Event.writeAttempt sub ip, Event.getZoneRecords sub]).1 hb
      rw [if_neg hr] at h1
      exact absurd h1 hupd
  refine ⟨hres, ?_, ?_⟩
  · rw [issueZoneWrite_zone_record_ids, UpdaterState.setZoneId_zone_record_ids]
    simp
  · intro s
    rw [issueZoneWrite_current_ips]
    simp [hres]
    rfl

/-- Witness for C10: lookup finds identity 42, the update is rejected, the
Writer reports failure, yet the identity is now cached and the applied IP is
untouched. -/
theorem c10_witness :
    (update_dns_record p42fail initState "www" "2.2.2.2").1 = false
    ∧ (update_dns_record p42fail initState "www" "2.2.2.2").2.1.zone_record_ids "www"
        = some 42
    ∧ (update_dns_record p42fail initState "www" "2.2.2.2").2.1.current_ips "www" = none := by
  have h := c10_failed_write_still_caches_identity p42fail initState "www" "2.2.2.2"
    { record_id := 42 } [] rfl rfl (by decide) (by simp [p42fail])
  exact ⟨h.1, h.2.1, h.2.2 "www"⟩
